import Mathlib

/-!
Verification of the openclaw-governance policy engine.

This file shallow-embeds the TypeScript sources of the governance engine
(`src/policy-evaluator.ts`, `src/conditions/context.ts`, `src/conditions/time.ts`,
`src/risk-assessor.ts`, `src/engine.ts`) and proves properties of the embedded
definitions.  Machine numbers are modelled as `ℚ`/`Int`/`Nat`; JS `Map`s as
association lists; JS `RegExp` objects as opaque string predicates
(`String → Bool`), since the claims proved here never depend on actual regex
semantics.  Functions of the repository whose source files are not available
(`conditions/simple.ts`, `conditions/index.ts`, `frequency-tracker.ts`,
`cross-agent.ts`, `util.ts`) are modelled from the specification and marked
`Modelled from the spec:` in their doc comments.
-/

set_option maxRecDepth 4000
set_option maxHeartbeats 1000000

namespace Governance

/-! ## Basic domain types (from `src/types.ts`) -/

/-- `TrustTier` from types.ts: the five trust bands. -/
inductive TrustTier where
  | untrusted
  | restricted
  | standard
  | trusted
  | privileged
deriving DecidableEq

/-- Rank of a tier in the five-band natural order
`untrusted < restricted < standard < trusted < privileged`. -/
def TrustTier.rank : TrustTier → Nat
  | .untrusted => 0
  | .restricted => 1
  | .standard => 2
  | .trusted => 3
  | .privileged => 4

/-- Modelled from the spec: `isTierAtLeast` (conditions/simple.ts is not under
src/).  The spec fixes the five-band total order for the gate semantics. -/
def isTierAtLeast (tier minTier : TrustTier) : Bool :=
  minTier.rank ≤ tier.rank

/-- Modelled from the spec: `isTierAtMost` (conditions/simple.ts is not under
src/). -/
def isTierAtMost (tier maxTier : TrustTier) : Bool :=
  tier.rank ≤ maxTier.rank

/-- `RiskLevel` from types.ts. -/
inductive RiskLevel where
  | low
  | medium
  | high
  | critical
deriving DecidableEq

/-- `PolicyHookName` from types.ts. -/
inductive HookName where
  | before_tool_call
  | message_sending
  | before_agent_start
  | session_start
deriving DecidableEq

/-- `AuditLevel` from types.ts. -/
inductive AuditLevel where
  | minimal
  | standard
  | verbose
deriving DecidableEq

/-- A JSON-ish value for tool parameters (`Record<string, unknown>`). -/
inductive JsonVal where
  | str (s : String)
  | bool (b : Bool)
  | num (q : ℚ)
  | null
deriving DecidableEq

/-- `TimeContext` from types.ts. -/
structure TimeContext where
  hour : Nat
  minute : Nat
  dayOfWeek : Nat
  date : String
  timezone : String
deriving DecidableEq

/-- The trust snapshot `{ score, tier }` carried by an evaluation context. -/
structure TrustSnap where
  score : ℚ
  tier : TrustTier
deriving DecidableEq

/-- `EvaluationContext` from types.ts.  Optional TS fields become `Option`. -/
structure EvaluationContext where
  hook : HookName
  agentId : String
  sessionKey : String
  channel : Option String
  toolName : Option String
  toolParams : Option (List (String × JsonVal))
  messageContent : Option String
  messageTo : Option String
  timestamp : Int
  time : TimeContext
  trust : TrustSnap
  conversationContext : Option (List String)
  metadata : Option (List (String × JsonVal))
deriving DecidableEq

/-- `RuleEffect` from types.ts. -/
inductive RuleEffect where
  | allow
  | deny (reason : String)
  | escalate (target : String) (timeout : Option ℚ) (fallbackDeny : Option Bool)
  | audit (level : Option AuditLevel)
deriving DecidableEq

/-- `effect.action === "deny"` as a predicate on effects. -/
def RuleEffect.isDeny : RuleEffect → Bool
  | .deny _ => true
  | _ => false

/-- `effect.action === "audit"` as a predicate on effects. -/
def RuleEffect.isAudit : RuleEffect → Bool
  | .audit _ => true
  | _ => false

/-- `effect.action === "escalate"` as a predicate on effects. -/
def RuleEffect.isEscalate : RuleEffect → Bool
  | .escalate _ _ _ => true
  | _ => false

/-- `PolicyScope` from types.ts. -/
structure PolicyScope where
  agents : Option (List String)
  excludeAgents : Option (List String)
  channels : Option (List String)
  hooks : Option (List HookName)
deriving DecidableEq

/-- `Rule` from types.ts, generic over the condition representation: the
TypeScript `PolicyEvaluator` receives its per-kind condition evaluators by
dependency injection, which we mirror by keeping the condition type abstract
in the evaluator development. -/
structure Rule (Cond : Type) where
  id : String
  conditions : List Cond
  effect : RuleEffect
  minTrust : Option TrustTier
  maxTrust : Option TrustTier
deriving DecidableEq

/-- `Policy` from types.ts. -/
structure Policy (Cond : Type) where
  id : String
  name : String
  version : String
  scope : PolicyScope
  rules : List (Rule Cond)
  enabled : Option Bool
  priority : Option Int
deriving DecidableEq

/-- `MatchedPolicy` from types.ts. -/
structure MatchedPolicy where
  policyId : String
  ruleId : String
  effect : RuleEffect
deriving DecidableEq

/-- `RiskFactor` from types.ts. -/
structure RiskFactor where
  name : String
  weight : ℚ
  value : ℚ
  description : String
deriving DecidableEq

/-- `RiskAssessment` from types.ts. -/
structure RiskAssessment where
  level : RiskLevel
  score : Int
  factors : List RiskFactor
deriving DecidableEq

/-- `TimeWindow` from types.ts (`start`/`end` are named `winStart`/`winEnd`
because `end` is reserved in Lean). -/
structure TimeWindow where
  name : String
  winStart : String
  winEnd : String
  days : Option (List Nat)
  timezone : Option String
deriving DecidableEq

/-- `FrequencyEntry` from types.ts. -/
structure FrequencyEntry where
  timestamp : Int
  agentId : String
  sessionKey : String
  toolName : Option String
deriving DecidableEq

/-- The `scope` argument of `FrequencyTracker.count`. -/
inductive FreqScope where
  | agent
  | session
  | global
deriving DecidableEq

/-- A JS `RegExp` is modelled as an opaque predicate on strings. -/
def RegexM : Type := String → Bool

/-- `ConditionDeps` from types.ts: the dependency bag handed to condition
evaluators.  The frequency tracker object is modelled by its recorded entries
plus the current wall-clock in milliseconds. -/
structure ConditionDeps where
  regexCache : List (String × RegexM)
  timeWindows : List (String × TimeWindow)
  risk : RiskAssessment
  freqEntries : List FrequencyEntry
  nowMs : Int

/-- Association-list lookup, modelling `Map.get` / record indexing. -/
def alistGet {α β : Type} [BEq α] (l : List (α × β)) (k : α) : Option β :=
  (l.find? (fun p => p.1 == k)).map (fun p => p.2)

/-! ## Policy evaluator (`src/policy-evaluator.ts`) -/

/-- The action component of `EvalResult` in policy-evaluator.ts, whose TS type
is the two-element union `"allow" | "deny"`. -/
inductive SimpleAction where
  | allow
  | deny
deriving DecidableEq

/-- `EvalResult` from policy-evaluator.ts (the `matches` field is named
`matchList` because `matches` is reserved in Lean). -/
structure EvalResult where
  action : SimpleAction
  reason : String
  matchList : List MatchedPolicy
deriving DecidableEq

/-- `matchesScope` from policy-evaluator.ts (lines 18-32).  Note that the
empty string is falsy in JS, so a present-but-empty `ctx.channel` fails the
`!ctx.channel` guard. -/
def matchesScope {Cond : Type} (policy : Policy Cond) (ctx : EvaluationContext) : Bool :=
  if (policy.scope.excludeAgents.getD []).contains ctx.agentId then
    false
  else
    match policy.scope.channels with
    | some chs =>
      if chs.length > 0 then
        match ctx.channel with
        | some ch => if ch == "" then false else chs.contains ch
        | none => false
      else true
    | none => true

/-- `policySpecificity` from policy-evaluator.ts (lines 34-40). -/
def policySpecificity {Cond : Type} (policy : Policy Cond) : Nat :=
  (if (policy.scope.agents.getD []).length > 0 then 10 else 0)
  + (if (policy.scope.channels.getD []).length > 0 then 5 else 0)
  + (if (policy.scope.hooks.getD []).length > 0 then 3 else 0)

/-- The sort key of the evaluator's comparator: priority (`?? 0`) first, then
specificity. -/
def policyKey {Cond : Type} (p : Policy Cond) : Int × Nat :=
  (p.priority.getD 0, policySpecificity p)

/-- `a` precedes-or-ties `b` under the comparator of `evaluateWithDeps`
(priority descending, then specificity descending). -/
def keyGE (a b : Int × Nat) : Bool :=
  b.1 < a.1 || (a.1 == b.1 && b.2 ≤ a.2)

/-- Stable insertion used to model `Array.prototype.sort` (which is stable):
the inserted element goes after every already-placed element that compares
greater-or-equal. -/
def insertSorted {Cond : Type} (x : Policy Cond) : List (Policy Cond) → List (Policy Cond)
  | [] => [x]
  | y :: ys => if keyGE (policyKey y) (policyKey x) then y :: insertSorted x ys else x :: y :: ys

/-- The `applicable.sort(...)` call of `evaluateWithDeps`: a stable sort by
priority descending, ties by specificity descending, ties by input order. -/
def sortPolicies {Cond : Type} (ps : List (Policy Cond)) : List (Policy Cond) :=
  ps.foldl (fun acc p => insertSorted p acc) []

/-- Modelled from the spec: `evaluateConditions` (conditions/index.ts is not
under src/): AND-combination of a rule's conditions, short-circuiting on the
first false. -/
def evaluateConditions {Cond : Type} (evalCond : Cond → EvaluationContext → ConditionDeps → Bool)
    (conditions : List Cond) (ctx : EvaluationContext) (deps : ConditionDeps) : Bool :=
  conditions.all (fun c => evalCond c ctx deps)

/-- The rule loop of `evaluatePolicyWithDeps` (policy-evaluator.ts lines
208-223): skip a rule when a present trust gate rejects the tier, return the
first rule whose conditions all hold. -/
def findRuleMatch {Cond : Type} (evalCond : Cond → EvaluationContext → ConditionDeps → Bool)
    (pid : String) (ctx : EvaluationContext) (deps : ConditionDeps) :
    List (Rule Cond) → Option MatchedPolicy
  | [] => none
  | r :: rs =>
    if (match r.minTrust with
        | some t => !(isTierAtLeast ctx.trust.tier t)
        | none => false) then
      findRuleMatch evalCond pid ctx deps rs
    else if (match r.maxTrust with
        | some t => !(isTierAtMost ctx.trust.tier t)
        | none => false) then
      findRuleMatch evalCond pid ctx deps rs
    else if evaluateConditions evalCond r.conditions ctx deps then
      some ⟨pid, r.id, r.effect⟩
    else
      findRuleMatch evalCond pid ctx deps rs

/-- `PolicyEvaluator.evaluatePolicyWithDeps` (policy-evaluator.ts lines
200-226): the dependency bag is copied with `risk` replaced
(`{ ...deps, risk }`), then the rules are scanned in declared order. -/
def evaluatePolicyWithDeps {Cond : Type} (evalCond : Cond → EvaluationContext → ConditionDeps → Bool)
    (policy : Policy Cond) (ctx : EvaluationContext) (risk : RiskAssessment)
    (deps : ConditionDeps) : Option MatchedPolicy :=
  findRuleMatch evalCond policy.id ctx { deps with risk := risk } policy.rules

/-- One step of the aggregation loop of `evaluateWithDeps` (lines 164-177),
acting on the state `(hasDeny, denyReason, hasAudit)`: a deny sets `hasDeny`
and fills `denyReason` only when it is still empty (`if (!denyReason)`), an
audit sets `hasAudit`, anything else leaves the state unchanged. -/
def aggStep (s : Bool × String × Bool) (m : MatchedPolicy) : Bool × String × Bool :=
  match m.effect with
  | .deny reason => (true, if s.2.1 == "" then reason else s.2.1, s.2.2)
  | .audit _ => (s.1, s.2.1, true)
  | _ => s

/-- The flags produced by the aggregation loop over the matched policies. -/
def aggregateFlags (ms : List MatchedPolicy) : Bool × String × Bool :=
  ms.foldl aggStep (false, "", false)

/-- The matched-policy list of `evaluateWithDeps`: scope filter, stable sort,
then one optional contribution per policy in order. -/
def evalMatches {Cond : Type} (evalCond : Cond → EvaluationContext → ConditionDeps → Bool)
    (ctx : EvaluationContext) (policies : List (Policy Cond)) (risk : RiskAssessment)
    (deps : ConditionDeps) : List MatchedPolicy :=
  (sortPolicies (policies.filter (fun p => matchesScope p ctx))).filterMap
    (fun p => evaluatePolicyWithDeps evalCond p ctx risk deps)

/-- The result assembly of `evaluateWithDeps` (policy-evaluator.ts lines
179-197): deny-wins aggregation (`denyReason || "Denied by governance
policy"`), then the audit branch, then the allow fallthrough. -/
def evalAggregate (ms : List MatchedPolicy) : EvalResult :=
  if (aggregateFlags ms).1 then
    ⟨.deny,
      if (aggregateFlags ms).2.1 == "" then "Denied by governance policy"
      else (aggregateFlags ms).2.1,
      ms⟩
  else if (aggregateFlags ms).2.2 then
    ⟨.allow, "Allowed with audit logging", ms⟩
  else
    ⟨.allow,
      if ms.length > 0 then "Allowed by governance policy" else "No matching policies",
      ms⟩

/-- `PolicyEvaluator.evaluateWithDeps` (policy-evaluator.ts lines 145-198):
scope filter, stable sort, one optional contribution per policy, then the
deny-wins aggregation. -/
def evaluateWithDeps {Cond : Type} (evalCond : Cond → EvaluationContext → ConditionDeps → Bool)
    (ctx : EvaluationContext) (policies : List (Policy Cond)) (risk : RiskAssessment)
    (deps : ConditionDeps) : EvalResult :=
  evalAggregate (evalMatches evalCond ctx policies risk deps)

/-! ## String helpers for the condition kernel -/

/-- A TS `string | string[]` value. -/
inductive StrOrArr where
  | one (s : String)
  | many (l : List String)
deriving DecidableEq

/-- `Array.isArray(x) ? x : [x]`. -/
def StrOrArr.toList : StrOrArr → List String
  | .one s => [s]
  | .many l => l

/-- JS `String.prototype.includes` (substring containment). -/
def containsSubstr (t pat : String) : Bool :=
  pat == "" || (t.splitOn pat).length ≥ 2

/-- Remainder of `s` strictly after the first occurrence of `seg`, if any. -/
def dropAfterSeg (seg : List Char) : List Char → Option (List Char)
  | [] => if seg.isEmpty then some [] else none
  | c :: s =>
    if seg.isPrefixOf (c :: s) then some ((c :: s).drop seg.length)
    else dropAfterSeg seg s

/-- Consume each segment in order, each at its first occurrence. -/
def consumeSegs : List (List Char) → List Char → Option (List Char)
  | [], s => some s
  | seg :: rest, s =>
    match dropAfterSeg seg s with
    | some s1 => consumeSegs rest s1
    | none => none

/-- Modelled from the spec: glob matching per `glob_to_regex` (util.ts is not
under src/): `*` matches any characters, all other characters are literal,
the pattern is anchored at both ends. -/
def globMatch (pattern s : String) : Bool :=
  match (pattern.splitOn "*").map String.toList with
  | [] => false
  | [seg] => s.toList == seg
  | first :: rest =>
    let sl := s.toList
    if first.isPrefixOf sl then
      match consumeSegs rest.dropLast (sl.drop first.length) with
      | some r => (rest.getLastD []).isSuffixOf r
      | none => false
    else false

/-! ## Context conditions (`src/conditions/context.ts`) -/

/-- `ContextCondition` from types.ts. -/
structure ContextCondition where
  conversationContains : Option StrOrArr
  messageContains : Option StrOrArr
  hasMetadata : Option StrOrArr
  channel : Option StrOrArr
  sessionKey : Option String
deriving DecidableEq

/-- `matchesAny` from context.ts (lines 9-26).  `compileRegex` models the
ambient `new RegExp(pattern)` call, returning `none` when construction throws
(in which case the code falls back to substring search). -/
def matchesAny (compileRegex : String → Option RegexM) (patterns : StrOrArr)
    (texts : List String) (regexCache : List (String × RegexM)) : Bool :=
  patterns.toList.any fun pattern =>
    match alistGet regexCache pattern with
    | some re => texts.any re
    | none =>
      match compileRegex pattern with
      | some compiled => texts.any compiled
      | none => texts.any (fun t => containsSubstr t pattern)

/-- `evaluateContextCondition` from context.ts (lines 28-71).  Each check of
the source either returns `false` early or falls through, which is exactly
right-nested boolean conjunction. -/
def evaluateContextCondition (compileRegex : String → Option RegexM)
    (c : ContextCondition) (ctx : EvaluationContext) (deps : ConditionDeps) : Bool :=
  (match c.conversationContains with
   | none => true
   | some pats =>
     let convo := ctx.conversationContext.getD []
     !(convo.length == 0) && matchesAny compileRegex pats convo deps.regexCache) &&
  (match c.messageContains with
   | none => true
   | some pats =>
     let content := ctx.messageContent.getD ""
     !(content == "") && matchesAny compileRegex pats [content] deps.regexCache) &&
  (match c.hasMetadata with
   | none => true
   | some keys =>
     let meta := (ctx.metadata.getD []).map Prod.fst
     keys.toList.all (fun k => meta.contains k)) &&
  (match c.channel with
   | none => true
   | some chans =>
     match ctx.channel with
     | some ch => !(ch == "") && chans.toList.contains ch
     | none => false) &&
  (match c.sessionKey with
   | none => true
   | some pat => !(ctx.sessionKey == "") && globMatch pat ctx.sessionKey)

/-! ## Time conditions (`src/conditions/time.ts`) -/

/-- `TimeCondition` from types.ts. -/
structure TimeCondition where
  window : Option String
  after : Option String
  before : Option String
  days : Option (List Nat)
deriving DecidableEq

/-- Modelled from the spec: `parseTimeToMinutes` (util.ts is not under src/):
accepts `"HH:MM"` with `00 ≤ HH ≤ 23`, `00 ≤ MM ≤ 59`; returns minutes since
midnight, or a negative sentinel on parse failure. -/
def parseTimeToMinutes (s : String) : Int :=
  match s.splitOn ":" with
  | [h, m] =>
    match h.toNat?, m.toNat? with
    | some hh, some mm => if hh ≤ 23 && mm ≤ 59 then hh * 60 + mm else -1
    | _, _ => -1
  | _ => -1

/-- Modelled from the spec: `isInTimeRange` (util.ts is not under src/):
`after ≤ now < before` when `after < before`; `now ≥ after` OR `now < before`
when `after > before` (midnight wrap); equality when `after == before`. -/
def isInTimeRange (now after before : Int) : Bool :=
  if after < before then after ≤ now && now < before
  else if before < after then after ≤ now || now < before
  else now == after

/-- The inline after/before/days logic of `evaluateTimeCondition` — the code
that runs when the named-window branch is not taken. -/
def evaluateTimeInline (c : TimeCondition) (ctx : EvaluationContext) : Bool :=
  let currentMinutes : Int := (ctx.time.hour : Int) * 60 + (ctx.time.minute : Int)
  (match c.after, c.before with
   | some a, some b =>
     let am := parseTimeToMinutes a
     let bm := parseTimeToMinutes b
     !(am < 0 || bm < 0) && isInTimeRange currentMinutes am bm
   | some a, none =>
     let am := parseTimeToMinutes a
     !(am < 0) && !(currentMinutes < am)
   | none, some b =>
     let bm := parseTimeToMinutes b
     !(bm < 0) && !(currentMinutes ≥ bm)
   | none, none => true) &&
  (match c.days with
   | some ds => if ds.length > 0 then ds.contains ctx.time.dayOfWeek else true
   | none => true)

/-- `evaluateTimeCondition` from time.ts (src/unnamed/part_000 lines 9-61).
The named-window branch is guarded by `if (c.window)`, a JS truthiness test:
an absent window AND the empty window name both fall through to the inline
after/before/days logic. -/
def evaluateTimeCondition (c : TimeCondition) (ctx : EvaluationContext)
    (deps : ConditionDeps) : Bool :=
  match c.window with
  | some w =>
    if w == "" then evaluateTimeInline c ctx
    else
      match alistGet deps.timeWindows w with
      | none => false
      | some win =>
        let currentMinutes : Int :=
          (ctx.time.hour : Int) * 60 + (ctx.time.minute : Int)
        let start := parseTimeToMinutes win.winStart
        let stop := parseTimeToMinutes win.winEnd
        if start < 0 || stop < 0 then false
        else if !(isInTimeRange currentMinutes start stop) then false
        else
          match win.days with
          | some ds => if ds.length > 0 then ds.contains ctx.time.dayOfWeek else true
          | none => true
  | none => evaluateTimeInline c ctx

/-- The concrete condition representation covering the condition kinds whose
evaluator sources are under src/. -/
inductive Condition where
  | context (c : ContextCondition)
  | time (c : TimeCondition)
deriving DecidableEq

/-- Modelled from the spec: the condition evaluator registry
(conditions/index.ts is not under src/), restricted to the condition kinds
whose per-kind evaluators are under src/. -/
def evalCondition (compileRegex : String → Option RegexM) :
    Condition → EvaluationContext → ConditionDeps → Bool
  | .context c => evaluateContextCondition compileRegex c
  | .time c => evaluateTimeCondition c

/-! ## Risk assessor (`src/risk-assessor.ts`) -/

/-- `clamp` from util.ts (semantics given by the spec: clamp to `[lo, hi]`). -/
def clampQ (x lo hi : ℚ) : ℚ :=
  if x < lo then lo else if hi < x then hi else x

/-- JS `Math.round` (round half away from zero; all inputs here are
nonnegative, where it is round half up). -/
def jsRound (q : ℚ) : Int :=
  ⌊q + 1 / 2⌋

/-- `DEFAULT_TOOL_RISK` from risk-assessor.ts. -/
def defaultToolRisk : List (String × ℚ) :=
  [("gateway", 95), ("cron", 90), ("elevated", 95),
   ("exec", 70), ("write", 65), ("edit", 60),
   ("sessions_spawn", 45), ("sessions_send", 50),
   ("browser", 40), ("message", 40),
   ("read", 10), ("memory_search", 5), ("memory_get", 5),
   ("web_search", 15), ("web_fetch", 20), ("image", 10), ("canvas", 15)]

/-- `lookupToolRisk` from risk-assessor.ts (lines 80-90): `!toolName` is
truthiness, so an empty tool name also yields the default 30. -/
def lookupToolRisk (toolName : Option String) (overrides : List (String × ℚ)) : ℚ :=
  match toolName with
  | none => 30
  | some t =>
    if t == "" then 30
    else
      match alistGet overrides t with
      | some v => v
      | none =>
        match alistGet defaultToolRisk t with
        | some v => v
        | none => 30

/-- `isOffHours` from risk-assessor.ts. -/
def isOffHours (hour : Nat) : Bool :=
  hour < 8 || 23 ≤ hour

/-- `isExternalTarget` from risk-assessor.ts (lines 96-105). -/
def isExternalTarget (ctx : EvaluationContext) : Bool :=
  (match ctx.messageTo with
   | some s => !(s == "")
   | none => false) ||
  (match ctx.toolParams with
   | some ps =>
     (match alistGet ps "host" with
      | some (.str h) => !(h == "sandbox")
      | _ => false) ||
     (match alistGet ps "elevated" with
      | some (.bool b) => b
      | _ => false)
   | none => false)

/-- Modelled from the spec: `FrequencyTracker.count` (frequency-tracker.ts is
not under src/): tally the recorded entries whose timestamp lies within the
window and whose scope field matches — scope `agent` matches by `agentId`,
scope `session` by `sessionKey`, scope `global` matches all.  (The exact
boundary comparison is not fixed by the spec; we take
`nowMs - timestamp ≤ windowSeconds * 1000`.) -/
def freqCount (entries : List FrequencyEntry) (nowMs : Int) (windowSeconds : Int)
    (scope : FreqScope) (agentId sessionKey : String) : Nat :=
  (entries.filter (fun e =>
    (nowMs - e.timestamp ≤ windowSeconds * 1000) &&
    (match scope with
     | .agent => e.agentId == agentId
     | .session => e.sessionKey == sessionKey
     | .global => true))).length

/-- Sum of the `value` fields, modelling
`factors.reduce((sum, f) => sum + f.value, 0)`. -/
def factorSum (factors : List RiskFactor) : ℚ :=
  factors.foldl (fun sum f => sum + f.value) 0

/-- `scoreToRiskLevel` from risk-assessor.ts (lines 181-186): note that the
source applies it to the unrounded clamped total. -/
def scoreToRiskLevel (score : ℚ) : RiskLevel :=
  if score ≤ 25 then .low
  else if score ≤ 50 then .medium
  else if score ≤ 75 then .high
  else .critical

/-- `RiskAssessor.assess` from risk-assessor.ts (lines 114-178).  The tracker
object is passed as its recorded entries plus the current wall-clock; the
`count` call uses window 60s and scope `"agent"` exactly as in the source. -/
def assess (overrides : List (String × ℚ)) (ctx : EvaluationContext)
    (entries : List FrequencyEntry) (nowMs : Int) : RiskAssessment :=
  let toolRaw := lookupToolRisk ctx.toolName overrides
  let toolValue := toolRaw / 100 * 30
  let timeValue : ℚ := if isOffHours ctx.time.hour then 15 else 0
  let trustValue := (100 - ctx.trust.score) / 100 * 20
  let recentCount := freqCount entries nowMs 60 .agent ctx.agentId ctx.sessionKey
  let freqValue := min ((recentCount : ℚ) / 20) 1 * 15
  let targetValue : ℚ := if isExternalTarget ctx then 20 else 0
  let factors : List RiskFactor :=
    [⟨"tool_sensitivity", 30, toolValue,
      "Tool " ++ ctx.toolName.getD "unknown" ++ " risk=" ++ toString toolRaw⟩,
     ⟨"time_of_day", 15, timeValue,
      if timeValue > 0 then "Off-hours operation" else "Business hours"⟩,
     ⟨"trust_deficit", 20, trustValue,
      "Trust score " ++ toString ctx.trust.score ++ "/100"⟩,
     ⟨"frequency", 15, freqValue,
      toString recentCount ++ " actions in last 60s"⟩,
     ⟨"target_scope", 20, targetValue,
      if targetValue > 0 then "External target" else "Internal target"⟩]
  let total := clampQ (factorSum factors) 0 100
  ⟨scoreToRiskLevel total, jsRound total, factors⟩

/-! ## Policy index and effective-policy resolution -/

/-- `PolicyIndex` from types.ts, with the maps as association lists (the regex
cache is irrelevant to resolution and omitted here). -/
structure PolicyIndex (Cond : Type) where
  byHook : List (HookName × List (Policy Cond))
  byAgent : List (String × List (Policy Cond))

/-- Keep the first policy of each id, dropping later duplicates. -/
def dedupByIdAux {Cond : Type} (seen : List String) :
    List (Policy Cond) → List (Policy Cond)
  | [] => []
  | p :: ps =>
    if seen.contains p.id then dedupByIdAux seen ps
    else p :: dedupByIdAux (p.id :: seen) ps

/-- De-duplication by policy id, keeping first occurrences. -/
def dedupById {Cond : Type} (ps : List (Policy Cond)) : List (Policy Cond) :=
  dedupByIdAux [] ps

/-- Modelled from the spec: `CrossAgentManager.resolveEffectivePolicies`
(cross-agent.ts is not under src/): the effective policy set is the union of
`index.by_hook[ctx.hook]`, `index.by_agent[ctx.agent_id]` and
`index.by_agent["*"]`, de-duplicated by id, filtered by scope (exclude list,
channel whitelist, enabled flag).  The exclude-list and channel filters are
the source's `matchesScope`; `enabled` defaults to true. -/
def resolveEffectivePolicies {Cond : Type} (ctx : EvaluationContext)
    (index : PolicyIndex Cond) : List (Policy Cond) :=
  let candidates :=
    (alistGet index.byHook ctx.hook).getD []
    ++ (alistGet index.byAgent ctx.agentId).getD []
    ++ (alistGet index.byAgent "*").getD []
  (dedupById candidates).filter (fun p => p.enabled.getD true && matchesScope p ctx)

/-! ## Governance engine (`src/engine.ts`, src/unnamed/part_000) -/

/-- `EvaluationStats` from types.ts. -/
structure EvaluationStats where
  totalEvaluations : Nat
  allowCount : Nat
  denyCount : Nat
  errorCount : Nat
  avgEvaluationUs : ℚ
deriving DecidableEq

/-- The statistics object as initialised in the engine constructor. -/
def initStats : EvaluationStats :=
  ⟨0, 0, 0, 0, 0⟩

/-- `GovernanceEngine.updateStats` (engine.ts lines 457-466): called only on
the non-error path, with the two-valued `"allow" | "deny"` action. -/
def updateStats (s : EvaluationStats) (action : SimpleAction) (us : ℚ) : EvaluationStats :=
  let total := s.totalEvaluations + 1
  { s with
    totalEvaluations := total
    allowCount := if action = .allow then s.allowCount + 1 else s.allowCount
    denyCount := if action = .allow then s.denyCount else s.denyCount + 1
    avgEvaluationUs := (s.avgEvaluationUs * ((total : ℚ) - 1) + us) / (total : ℚ) }

/-- `FailMode` from types.ts (`"open" | "closed"`; `open` is reserved in
Lean, hence the constructor names). -/
inductive FailMode where
  | failOpen
  | failClosed
deriving DecidableEq

/-- The engine configuration fields that `evaluate` consults. -/
structure EngineConfig where
  failMode : FailMode
  auditEnabled : Bool
deriving DecidableEq

/-- The verdict action (`"allow" | "deny" | "escalate"` from types.ts). -/
inductive VerdictAction where
  | allow
  | deny
  | escalate
deriving DecidableEq

/-- The TS union widening from `EvalResult["action"]` to `Verdict["action"]`. -/
def SimpleAction.toVerdictAction : SimpleAction → VerdictAction
  | .allow => .allow
  | .deny => .deny

/-- `AuditVerdict` from types.ts. -/
inductive AuditVerdict where
  | allow
  | deny
  | escalate
  | escalate_approved
  | escalate_denied
  | escalate_timeout
  | error_fallback
deriving DecidableEq

/-- The cast `verdict.action as AuditVerdict` on the success path (where the
action is two-valued). -/
def SimpleAction.toAuditVerdict : SimpleAction → AuditVerdict
  | .allow => .allow
  | .deny => .deny

/-- `Verdict` from types.ts (the fields the engine populates). -/
structure Verdict where
  action : VerdictAction
  reason : String
  risk : RiskAssessment
  matchedPolicies : List MatchedPolicy
  trust : TrustSnap
  evaluationUs : ℚ
deriving DecidableEq

/-- The arguments of one `auditTrail.record(...)` call made by the engine
(`AuditContext` fields inlined; `record` itself lives in audit-trail.ts,
which only consumes these values). -/
structure AuditCall where
  verdict : AuditVerdict
  hook : HookName
  agentId : String
  sessionKey : String
  channel : Option String
  toolName : Option String
  toolParams : Option (List (String × JsonVal))
  messageContent : Option String
  messageTo : Option String
  trust : TrustSnap
  riskLevel : RiskLevel
  riskScore : Int
  matchedPolicies : List MatchedPolicy
  evaluationUs : ℚ
deriving DecidableEq

/-- The values produced by steps 1-5 of the `try` block of
`GovernanceEngine.evaluate` when no step throws: the (possibly cross-agent
enriched) context, the risk assessment, and the policy-evaluation result. -/
structure InnerOk where
  ctx : EvaluationContext
  risk : RiskAssessment
  evalResult : EvalResult
deriving DecidableEq

/-- `GovernanceEngine.evaluate` (engine.ts lines 283-401), with the body of
the `try` block abstracted as `inner : Except Unit InnerOk` (`.error` models
any step throwing) and the measured elapsed time as `elapsedUs`.  The JS
`try`/`catch` makes this function total: the catch arm increments the error
counter, emits an `error_fallback` audit record when auditing is enabled, and
returns the fail-mode fallback verdict — the exception is never re-thrown.
Returns (verdict, new statistics, audit-record calls appended to `auditLog`). -/
def engineEvaluate (cfg : EngineConfig) (stats : EvaluationStats)
    (auditLog : List AuditCall) (ctx : EvaluationContext)
    (inner : Except Unit InnerOk) (elapsedUs : ℚ) :
    Verdict × EvaluationStats × List AuditCall :=
  match inner with
  | .ok r =>
    let verdict : Verdict :=
      ⟨r.evalResult.action.toVerdictAction, r.evalResult.reason, r.risk,
        r.evalResult.matchList, r.ctx.trust, elapsedUs⟩
    let auditLog1 :=
      if cfg.auditEnabled then
        auditLog ++
          [⟨r.evalResult.action.toAuditVerdict, r.ctx.hook, r.ctx.agentId,
            r.ctx.sessionKey, r.ctx.channel, r.ctx.toolName, r.ctx.toolParams,
            r.ctx.messageContent, r.ctx.messageTo, r.ctx.trust, r.risk.level,
            r.risk.score, r.evalResult.matchList, elapsedUs⟩]
      else auditLog
    (verdict, updateStats stats r.evalResult.action elapsedUs, auditLog1)
  | .error _ =>
    let stats1 := { stats with errorCount := stats.errorCount + 1 }
    let fallback : SimpleAction :=
      match cfg.failMode with
      | .failClosed => .deny
      | .failOpen => .allow
    let auditLog1 :=
      if cfg.auditEnabled then
        auditLog ++
          [⟨.error_fallback, ctx.hook, ctx.agentId, ctx.sessionKey, none,
            ctx.toolName, none, none, none, ctx.trust, .critical, 100, [],
            elapsedUs⟩]
      else auditLog
    (⟨fallback.toVerdictAction,
        (match fallback with
         | .deny => "Governance engine error (fail-closed)"
         | .allow => "Governance engine error (fail-open)"),
        ⟨.critical, 100, []⟩, [], ctx.trust, elapsedUs⟩,
      stats1, auditLog1)

/-! ## Specification-side characterisations -/

/-- The reason of the first denying contribution that carries a non-empty
reason, scanning in contribution order. -/
def firstNonEmptyDenyReason : List MatchedPolicy → Option String
  | [] => none
  | m :: ms =>
    match m.effect with
    | .deny r => if r == "" then firstNonEmptyDenyReason ms else some r
    | _ => firstNonEmptyDenyReason ms

/-- A rule is satisfied when its present trust gates permit the context's
tier and all its conditions hold (with the dependency bag's risk replaced by
the current assessment, as the source does). -/
def ruleSatisfied {Cond : Type} (evalCond : Cond → EvaluationContext → ConditionDeps → Bool)
    (r : Rule Cond) (ctx : EvaluationContext) (risk : RiskAssessment)
    (deps : ConditionDeps) : Bool :=
  (match r.minTrust with
   | some t => isTierAtLeast ctx.trust.tier t
   | none => true) &&
  (match r.maxTrust with
   | some t => isTierAtMost ctx.trust.tier t
   | none => true) &&
  evaluateConditions evalCond r.conditions ctx { deps with risk := risk }

/-- The frequency count as claimed by the specification sentence under test
for the risk assessor: entries of the last 60 seconds matching BOTH the
context's agent id AND its session key.  (The source instead passes scope
`"agent"`, which matches by agent id only.) -/
def claimFreqCountBoth (entries : List FrequencyEntry) (nowMs : Int)
    (agentId sessionKey : String) : Nat :=
  (entries.filter (fun e =>
    (nowMs - e.timestamp ≤ 60 * 1000) && e.agentId == agentId &&
      e.sessionKey == sessionKey)).length

/-- The five weighted factor values of the risk table, summed. -/
def riskFactorSum (overrides : List (String × ℚ)) (ctx : EvaluationContext)
    (entries : List FrequencyEntry) (nowMs : Int) : ℚ :=
  lookupToolRisk ctx.toolName overrides / 100 * 30
  + (if isOffHours ctx.time.hour then (15 : ℚ) else 0)
  + (100 - ctx.trust.score) / 100 * 20
  + min ((freqCount entries nowMs 60 .agent ctx.agentId ctx.sessionKey : ℚ) / 20) 1 * 15
  + (if isExternalTarget ctx then (20 : ℚ) else 0)

/-! ## Helper lemmas -/

theorem foldl_aggStep_fst (ms : List MatchedPolicy) :
    ∀ s : Bool × String × Bool,
      (ms.foldl aggStep s).1 = (s.1 || ms.any (fun m => m.effect.isDeny)) := by
  induction ms with
  | nil => intro s; simp
  | cons m ms ih =>
    intro s
    cases h : m.effect <;>
      simp [List.foldl_cons, List.any_cons, aggStep, h, ih, RuleEffect.isDeny,
        Bool.or_assoc]

theorem foldl_aggStep_snd (ms : List MatchedPolicy) :
    ∀ s : Bool × String × Bool,
      (ms.foldl aggStep s).2.1 =
        if s.2.1 == "" then (firstNonEmptyDenyReason ms).getD "" else s.2.1 := by
  induction ms with
  | nil =>
    intro s
    by_cases h : s.2.1 == "" <;> simp_all [firstNonEmptyDenyReason]
  | cons m ms ih =>
    intro s
    cases hm : m.effect with
    | deny r =>
      simp only [List.foldl_cons, aggStep, hm, firstNonEmptyDenyReason]
      rw [ih]
      by_cases hs : s.2.1 == "" <;> by_cases hr : r == "" <;> simp_all
    | allow =>
      simp only [List.foldl_cons, aggStep, hm, firstNonEmptyDenyReason]
      rw [ih]
    | escalate t u f =>
      simp only [List.foldl_cons, aggStep, hm, firstNonEmptyDenyReason]
      rw [ih]
    | audit l =>
      simp only [List.foldl_cons, aggStep, hm, firstNonEmptyDenyReason]
      rw [ih]

theorem firstNonEmptyDenyReason_ne (ms : List MatchedPolicy) (r : String)
    (h : firstNonEmptyDenyReason ms = some r) : ¬(r = "") := by
  induction ms with
  | nil => simp [firstNonEmptyDenyReason] at h
  | cons m ms ih =>
    cases hm : m.effect with
    | deny s =>
      simp only [firstNonEmptyDenyReason, hm] at h
      split at h
      · exact ih h
      · cases h
        simp_all
    | allow => simp only [firstNonEmptyDenyReason, hm] at h; exact ih h
    | escalate t u f => simp only [firstNonEmptyDenyReason, hm] at h; exact ih h
    | audit l => simp only [firstNonEmptyDenyReason, hm] at h; exact ih h

theorem mem_insertSorted {Cond : Type} (x : Policy Cond) (l : List (Policy Cond))
    (y : Policy Cond) : y ∈ insertSorted x l ↔ y = x ∨ y ∈ l := by
  induction l with
  | nil => simp [insertSorted]
  | cons z zs ih =>
    rw [insertSorted]
    by_cases h : keyGE (policyKey z) (policyKey x)
    · rw [if_pos h]
      simp only [List.mem_cons, ih]
      tauto
    · rw [if_neg h]
      simp only [List.mem_cons]

theorem mem_sortPolicies_foldl {Cond : Type} (l : List (Policy Cond)) :
    ∀ (acc : List (Policy Cond)) (y : Policy Cond),
      y ∈ l.foldl (fun a p => insertSorted p a) acc ↔ y ∈ acc ∨ y ∈ l := by
  induction l with
  | nil => intro acc y; simp
  | cons p ps ih =>
    intro acc y
    rw [List.foldl_cons, ih, mem_insertSorted]
    simp
    tauto

theorem mem_sortPolicies {Cond : Type} (l : List (Policy Cond)) (y : Policy Cond) :
    y ∈ sortPolicies l ↔ y ∈ l := by
  rw [sortPolicies, mem_sortPolicies_foldl]
  simp

theorem findRuleMatch_policyId {Cond : Type}
    (evalCond : Cond → EvaluationContext → ConditionDeps → Bool) (pid : String)
    (ctx : EvaluationContext) (deps : ConditionDeps) :
    ∀ (rules : List (Rule Cond)) (m : MatchedPolicy),
      findRuleMatch evalCond pid ctx deps rules = some m → m.policyId = pid := by
  intro rules
  induction rules with
  | nil => intro m h; simp [findRuleMatch] at h
  | cons r rs ih =>
    intro m h
    rw [findRuleMatch] at h
    split at h
    · exact ih m h
    · split at h
      · exact ih m h
      · split at h
        · cases h; rfl
        · exact ih m h

theorem evaluateWithDeps_matchList {Cond : Type}
    (evalCond : Cond → EvaluationContext → ConditionDeps → Bool)
    (ctx : EvaluationContext) (policies : List (Policy Cond))
    (risk : RiskAssessment) (deps : ConditionDeps) :
    (evaluateWithDeps evalCond ctx policies risk deps).matchList
      = evalMatches evalCond ctx policies risk deps := by
  unfold evaluateWithDeps evalAggregate
  split
  · rfl
  · split <;> rfl

theorem findRuleMatch_eq_find {Cond : Type}
    (evalCond : Cond → EvaluationContext → ConditionDeps → Bool) (pid : String)
    (ctx : EvaluationContext) (deps : ConditionDeps) :
    ∀ rules : List (Rule Cond),
      findRuleMatch evalCond pid ctx deps rules
        = (rules.find? (fun r =>
            (match r.minTrust with
             | some t => isTierAtLeast ctx.trust.tier t
             | none => true) &&
            (match r.maxTrust with
             | some t => isTierAtMost ctx.trust.tier t
             | none => true) &&
            evaluateConditions evalCond r.conditions ctx deps)).map
              (fun r => ⟨pid, r.id, r.effect⟩) := by
  intro rules
  induction rules with
  | nil => simp [findRuleMatch]
  | cons r rs ih =>
    cases hmin : r.minTrust with
    | some t =>
      cases htl : isTierAtLeast ctx.trust.tier t with
      | false => simp [findRuleMatch, List.find?, hmin, htl, ih]
      | true =>
        cases hmax : r.maxTrust with
        | some u =>
          cases htm : isTierAtMost ctx.trust.tier u with
          | false => simp [findRuleMatch, List.find?, hmin, htl, hmax, htm, ih]
          | true =>
            by_cases hc : evaluateConditions evalCond r.conditions ctx deps = true <;>
              simp_all [findRuleMatch, List.find?, hmin, htl, hmax, htm, ih]
        | none =>
          by_cases hc : evaluateConditions evalCond r.conditions ctx deps = true <;>
            simp_all [findRuleMatch, List.find?, hmin, htl, hmax, ih]
    | none =>
      cases hmax : r.maxTrust with
      | some u =>
        cases htm : isTierAtMost ctx.trust.tier u with
        | false => simp [findRuleMatch, List.find?, hmin, hmax, htm, ih]
        | true =>
          by_cases hc : evaluateConditions evalCond r.conditions ctx deps = true <;>
            simp_all [findRuleMatch, List.find?, hmin, hmax, htm, ih]
      | none =>
        by_cases hc : evaluateConditions evalCond r.conditions ctx deps = true <;>
          simp_all [findRuleMatch, List.find?, hmin, hmax, ih]

/-! ## Concrete fixtures used by witnesses and counterexamples -/

/-- A regex-construction oracle under which every `new RegExp` throws; the
properties proved about the condition kernel hold for every oracle, so any
concrete one serves for witnesses. -/
def compileRegexNone : String → Option RegexM := fun _ => none

/-- An empty risk assessment used where a dependency bag needs one. -/
def noRisk : RiskAssessment := ⟨.low, 0, []⟩

/-- An empty dependency bag. -/
def depsEmpty : ConditionDeps := ⟨[], [], noRisk, [], 0⟩

/-- A fully unconstrained policy scope. -/
def scopeAny : PolicyScope := ⟨none, none, none, none⟩

/-- Noon on a business day. -/
def timeNoon : TimeContext := ⟨12, 0, 1, "2026-02-17", "UTC"⟩

/-- A trusted-tier snapshot with score 60. -/
def trust60 : TrustSnap := ⟨60, .trusted⟩

/-- A plain tool-call context. -/
def ctxBase : EvaluationContext :=
  ⟨.before_tool_call, "main", "agent:main:main", none, some "exec", none, none,
    none, 0, timeNoon, trust60, none, none⟩

/-- Priority-10 policy whose unconditional rule denies with an empty reason. -/
def polDenyEmpty : Policy Condition :=
  ⟨"pA", "A", "1.0.0", scopeAny, [⟨"r1", [], .deny "", none, none⟩], none, some 10⟩

/-- Priority-0 policy whose unconditional rule denies with reason "no shell". -/
def polDenyNoShell : Policy Condition :=
  ⟨"pB", "B", "1.0.0", scopeAny, [⟨"r2", [], .deny "no shell", none, none⟩], none, some 0⟩

/-- Policy whose unconditional rule escalates to a human. -/
def polEscalate : Policy Condition :=
  ⟨"prod-safeguard", "Production Safeguard", "1.0.0", scopeAny,
    [⟨"resc", [], .escalate "human" (some 300) none, none, none⟩], none, none⟩

/-! ## C1: deny-wins aggregation -/

/-- C1 (amended): if any contribution is a deny, the verdict's action is deny
— no combination of allow/audit/escalate contributions can change it — and
the reason is the first NON-EMPTY deny reason in priority order, with the
default string used only when every denying contribution has an empty
reason.  (The claim as frozen says the reason comes from the first denying
contribution or the default when that reason is empty; the code instead
skips empty-reasoned denies in favour of a later non-empty one, see the
counterexample.) -/
theorem c1_deny_wins_amended {Cond : Type}
    (evalCond : Cond → EvaluationContext → ConditionDeps → Bool)
    (ctx : EvaluationContext) (policies : List (Policy Cond))
    (risk : RiskAssessment) (deps : ConditionDeps)
    (h : ∃ m ∈ evalMatches evalCond ctx policies risk deps, m.effect.isDeny = true) :
    (evaluateWithDeps evalCond ctx policies risk deps).action = SimpleAction.deny ∧
    (evaluateWithDeps evalCond ctx policies risk deps).reason
      = (firstNonEmptyDenyReason (evalMatches evalCond ctx policies risk deps)).getD
          "Denied by governance policy" := by
  obtain ⟨m, hm, hd⟩ := h
  have hany : (evalMatches evalCond ctx policies risk deps).any
      (fun m => m.effect.isDeny) = true :=
    List.any_eq_true.mpr ⟨m, hm, hd⟩
  have hfst : (aggregateFlags (evalMatches evalCond ctx policies risk deps)).1 = true := by
    rw [aggregateFlags, foldl_aggStep_fst]
    simp [hany]
  have hsnd : (aggregateFlags (evalMatches evalCond ctx policies risk deps)).2.1
      = (firstNonEmptyDenyReason (evalMatches evalCond ctx policies risk deps)).getD "" := by
    rw [aggregateFlags, foldl_aggStep_snd]
    simp
  constructor
  · rw [evaluateWithDeps, evalAggregate, if_pos hfst]
  · rw [evaluateWithDeps, evalAggregate, if_pos hfst]
    rw [hsnd]
    cases hF : firstNonEmptyDenyReason (evalMatches evalCond ctx policies risk deps) with
    | none => simp
    | some r =>
      have hr := firstNonEmptyDenyReason_ne _ _ hF
      simp [hr]

/-- C1 (counterexample to the claim as frozen): with a priority-10 policy
denying with empty reason and a priority-0 policy denying with reason
"no shell", the first denying contribution in priority order has the empty
reason, so the claim predicts the default string "Denied by governance
policy"; the code returns "no shell". -/
theorem c1_counterexample :
    evalMatches (evalCondition compileRegexNone) ctxBase [polDenyEmpty, polDenyNoShell]
        noRisk depsEmpty
      = [⟨"pA", "r1", .deny ""⟩, ⟨"pB", "r2", .deny "no shell"⟩] ∧
    (evaluateWithDeps (evalCondition compileRegexNone) ctxBase
        [polDenyEmpty, polDenyNoShell] noRisk depsEmpty).action = SimpleAction.deny ∧
    (evaluateWithDeps (evalCondition compileRegexNone) ctxBase
        [polDenyEmpty, polDenyNoShell] noRisk depsEmpty).reason = "no shell" ∧
    "no shell" ≠ "Denied by governance policy" := by
  refine ⟨by decide, by decide, by decide, by decide⟩

/-- Witness for the amended C1 theorem at a concrete input. -/
theorem c1_witness :
    (evaluateWithDeps (evalCondition compileRegexNone) ctxBase
        [polDenyEmpty, polDenyNoShell] noRisk depsEmpty).action = SimpleAction.deny ∧
    (evaluateWithDeps (evalCondition compileRegexNone) ctxBase
        [polDenyEmpty, polDenyNoShell] noRisk depsEmpty).reason
      = (firstNonEmptyDenyReason (evalMatches (evalCondition compileRegexNone) ctxBase
          [polDenyEmpty, polDenyNoShell] noRisk depsEmpty)).getD
          "Denied by governance policy" :=
  c1_deny_wins_amended (evalCondition compileRegexNone) ctxBase
    [polDenyEmpty, polDenyNoShell] noRisk depsEmpty
    ⟨⟨"pA", "r1", .deny ""⟩, by decide, by decide⟩

/-! ## C2: escalate is unreachable in the evaluator -/

/-- C2 (failing input): a single applicable policy whose rule contributes an
escalate effect.  The evaluator's `EvalResult` action type is the two-valued
union `"allow" | "deny"` and its aggregation has no escalate branch, so the
verdict is allow with reason "Allowed by governance policy" — contradicting
the repository's own ARCHITECTURE.md (§3.5 step 5 and the §6.3 integration
test "should escalate when policy requests it"), which require an escalate
verdict when an escalate contribution exists and no deny does. -/
theorem c2_escalate_failing_input :
    (evaluateWithDeps (evalCondition compileRegexNone) ctxBase [polEscalate]
        noRisk depsEmpty).action = SimpleAction.allow ∧
    (evaluateWithDeps (evalCondition compileRegexNone) ctxBase [polEscalate]
        noRisk depsEmpty).reason = "Allowed by governance policy" ∧
    (evaluateWithDeps (evalCondition compileRegexNone) ctxBase [polEscalate]
        noRisk depsEmpty).matchList
      = [⟨"prod-safeguard", "resc", .escalate "human" (some 300) none⟩] ∧
    RuleEffect.isEscalate (.escalate "human" (some 300) none) = true := by
  refine ⟨by decide, by decide, by decide, by decide⟩

/-! ## C3: scope filtering precedes rule evaluation -/

/-- C3: (a) a policy that is disabled, or whose exclude list contains the
context's agent, or whose non-empty channel list does not contain the
context's channel, is removed when the effective policy set is resolved; and
(b) every contribution in the evaluator's verdict stems from an input policy
that passed the scope filter (`matchesScope`), carrying that policy's id —
so an excluded policy never contributes an effect. -/
theorem c3_scope_filtering :
    (∀ (Cond : Type) (p : Policy Cond) (ctx : EvaluationContext)
        (index : PolicyIndex Cond),
      (p.enabled = some false
        ∨ (p.scope.excludeAgents.getD []).contains ctx.agentId = true
        ∨ ∃ chs, p.scope.channels = some chs ∧ chs ≠ [] ∧
            ∀ c, ctx.channel = some c → c ∉ chs) →
      p ∉ resolveEffectivePolicies ctx index) ∧
    (∀ (Cond : Type) (evalCond : Cond → EvaluationContext → ConditionDeps → Bool)
        (ctx : EvaluationContext) (policies : List (Policy Cond))
        (risk : RiskAssessment) (deps : ConditionDeps) (m : MatchedPolicy),
      m ∈ (evaluateWithDeps evalCond ctx policies risk deps).matchList →
      ∃ p, p ∈ policies ∧ matchesScope p ctx = true ∧ m.policyId = p.id) := by
  constructor
  · intro Cond p ctx index hbad hmem
    rw [resolveEffectivePolicies] at hmem
    have hpred := (List.mem_filter.mp hmem).2
    rcases hbad with hdis | hexc | ⟨chs, hch, hne, hnc⟩
    · simp [hdis] at hpred
    · simp [matchesScope] at hpred
      exact absurd (by simpa using hexc) hpred.2.1
    · simp [matchesScope] at hpred
      have h3 := hpred.2.2
      rw [hch] at h3
      have hlen : 0 < chs.length := List.length_pos.mpr hne
      cases hchan : ctx.channel with
      | none => simp [hchan, hlen] at h3
      | some c => simp [hchan, hlen, hnc c hchan] at h3
  · intro Cond evalCond ctx policies risk deps m hm
    rw [evaluateWithDeps_matchList, evalMatches] at hm
    obtain ⟨p, hps, hev⟩ := List.mem_filterMap.mp hm
    have hpf := (mem_sortPolicies _ _).mp hps
    have hp := List.mem_filter.mp hpf
    refine ⟨p, hp.1, hp.2, ?_⟩
    rw [evaluatePolicyWithDeps] at hev
    exact findRuleMatch_policyId evalCond p.id ctx _ p.rules m hev

/-- A disabled policy, for the C3 witness. -/
def polDisabled : Policy Condition :=
  ⟨"pD", "D", "1.0.0", scopeAny, [], some false, none⟩

/-- An index containing only the disabled policy, for the C3 witness. -/
def indexDisabled : PolicyIndex Condition :=
  ⟨[(.before_tool_call, [polDisabled])], []⟩

/-- A policy with an unconditional allow rule, for the C3 witness. -/
def polAllow : Policy Condition :=
  ⟨"pAllow", "Allow", "1.0.0", scopeAny, [⟨"ra", [], .allow, none, none⟩], none, none⟩

/-- Witness for C3 at concrete inputs: the disabled policy is resolved away,
and the allow contribution of a concrete evaluation is traced back to its
scope-passing policy. -/
theorem c3_witness :
    polDisabled ∉ resolveEffectivePolicies ctxBase indexDisabled ∧
    ∃ p, p ∈ [polAllow] ∧ matchesScope p ctxBase = true ∧
      (MatchedPolicy.mk "pAllow" "ra" .allow).policyId = p.id :=
  ⟨c3_scope_filtering.1 Condition polDisabled ctxBase indexDisabled (Or.inl rfl),
    c3_scope_filtering.2 Condition (evalCondition compileRegexNone) ctxBase [polAllow]
      noRisk depsEmpty ⟨"pAllow", "ra", .allow⟩ (by decide)⟩

/-! ## C5: per-policy first-rule contribution -/

/-- C5: a policy's contribution is exactly the effect of the first rule in
declared order whose present trust gates (checked with the five-band tier
order via `isTierAtLeast`/`isTierAtMost`) permit the context's tier and
whose conditions all hold under AND; a rule failing a gate is skipped with
later rules still considered (`List.find?` semantics), and the `Option`
result makes the contribution at most one effect. -/
theorem c5_first_rule_contribution {Cond : Type}
    (evalCond : Cond → EvaluationContext → ConditionDeps → Bool)
    (policy : Policy Cond) (ctx : EvaluationContext) (risk : RiskAssessment)
    (deps : ConditionDeps) :
    evaluatePolicyWithDeps evalCond policy ctx risk deps
      = (policy.rules.find? (fun r => ruleSatisfied evalCond r ctx risk deps)).map
          (fun r => ⟨policy.id, r.id, r.effect⟩) := by
  rw [evaluatePolicyWithDeps, findRuleMatch_eq_find]
  rfl

/-! ## C4: fail-mode fallback on evaluation errors -/

/-- C4: when any step of the `try` block of `GovernanceEngine.evaluate`
throws (`inner = .error e`), the engine increments the error counter and
returns the fallback verdict — allow under fail-open, deny under fail-closed
— and, exactly when auditing is enabled, appends one audit record with
verdict `error_fallback`; the embedded `evaluate` is a total function, i.e.
the catch arm never re-throws. -/
theorem c4_error_fallback (cfg : EngineConfig) (stats : EvaluationStats)
    (auditLog : List AuditCall) (ctx : EvaluationContext) (e : Unit) (elapsedUs : ℚ) :
    (engineEvaluate cfg stats auditLog ctx (.error e) elapsedUs).1.action
      = (match cfg.failMode with
         | .failClosed => VerdictAction.deny
         | .failOpen => VerdictAction.allow) ∧
    (engineEvaluate cfg stats auditLog ctx (.error e) elapsedUs).2.1.errorCount
      = stats.errorCount + 1 ∧
    (engineEvaluate cfg stats auditLog ctx (.error e) elapsedUs).2.2
      = auditLog ++
          (if cfg.auditEnabled then
            [⟨.error_fallback, ctx.hook, ctx.agentId, ctx.sessionKey, none,
              ctx.toolName, none, none, none, ctx.trust, .critical, 100, [],
              elapsedUs⟩]
          else []) := by
  obtain ⟨fm, ae⟩ := cfg
  cases fm <;> cases ae <;>
    simp [engineEvaluate, SimpleAction.toVerdictAction]

/-! ## C9: statistics invariant -/

theorem engineEvaluate_stats_preserves (cfg : EngineConfig)
    (auditLog : List AuditCall) (s : EvaluationStats)
    (c : EvaluationContext × Except Unit InnerOk × ℚ)
    (h : s.totalEvaluations = s.allowCount + s.denyCount) :
    (engineEvaluate cfg s auditLog c.1 c.2.1 c.2.2).2.1.totalEvaluations
      = (engineEvaluate cfg s auditLog c.1 c.2.1 c.2.2).2.1.allowCount
        + (engineEvaluate cfg s auditLog c.1 c.2.1 c.2.2).2.1.denyCount := by
  obtain ⟨ctx, inner, us⟩ := c
  cases inner with
  | error e => simpa [engineEvaluate] using h
  | ok r =>
    cases hr : r.evalResult.action <;>
      simp [engineEvaluate, updateStats, hr, h] <;> omega

theorem engineEvaluate_stats_foldl (cfg : EngineConfig) (auditLog : List AuditCall) :
    ∀ (calls : List (EvaluationContext × Except Unit InnerOk × ℚ))
      (s : EvaluationStats),
      s.totalEvaluations = s.allowCount + s.denyCount →
      (calls.foldl (fun s c => (engineEvaluate cfg s auditLog c.1 c.2.1 c.2.2).2.1)
          s).totalEvaluations
        = (calls.foldl (fun s c => (engineEvaluate cfg s auditLog c.1 c.2.1 c.2.2).2.1)
            s).allowCount
          + (calls.foldl (fun s c => (engineEvaluate cfg s auditLog c.1 c.2.1 c.2.2).2.1)
              s).denyCount := by
  intro calls
  induction calls with
  | nil => intro s h; simpa using h
  | cons c cs ih =>
    intro s h
    rw [List.foldl_cons]
    exact ih _ (engineEvaluate_stats_preserves cfg auditLog s c h)

/-- C9: after any sequence of `GovernanceEngine.evaluate` calls starting from
the constructor's zeroed statistics, `totalEvaluations = allowCount +
denyCount`; and an evaluation that takes the error-fallback path changes the
statistics record only by incrementing `errorCount`, so it contributes to
neither `totalEvaluations` nor the running mean `avgEvaluationUs`. -/
theorem c9_stats_invariant :
    (∀ (cfg : EngineConfig) (auditLog : List AuditCall)
        (calls : List (EvaluationContext × Except Unit InnerOk × ℚ)),
      (calls.foldl (fun s c => (engineEvaluate cfg s auditLog c.1 c.2.1 c.2.2).2.1)
          initStats).totalEvaluations
        = (calls.foldl (fun s c => (engineEvaluate cfg s auditLog c.1 c.2.1 c.2.2).2.1)
            initStats).allowCount
          + (calls.foldl (fun s c => (engineEvaluate cfg s auditLog c.1 c.2.1 c.2.2).2.1)
              initStats).denyCount) ∧
    (∀ (cfg : EngineConfig) (stats : EvaluationStats) (auditLog : List AuditCall)
        (ctx : EvaluationContext) (e : Unit) (us : ℚ),
      (engineEvaluate cfg stats auditLog ctx (.error e) us).2.1
        = { stats with errorCount := stats.errorCount + 1 }) := by
  constructor
  · intro cfg auditLog calls
    exact engineEvaluate_stats_foldl cfg auditLog calls initStats rfl
  · intro cfg stats auditLog ctx e us
    rfl

/-! ## C6: risk score and level -/

theorem clampQ_bounds (x : ℚ) : 0 ≤ clampQ x 0 100 ∧ clampQ x 0 100 ≤ 100 := by
  unfold clampQ
  split_ifs <;> constructor <;> linarith

theorem jsRound_bounds (q : ℚ) (h0 : 0 ≤ q) (h1 : q ≤ 100) :
    0 ≤ jsRound q ∧ jsRound q ≤ 100 := by
  unfold jsRound
  constructor
  · exact Int.le_floor.mpr (by push_cast; linarith)
  · have h2 : (⌊(201 : ℚ) / 2⌋ : Int) = 100 := by
      norm_num [Int.floor_eq_iff]
    calc ⌊q + 1 / 2⌋ ≤ ⌊(201 : ℚ) / 2⌋ := Int.floor_le_floor (by linarith)
    _ = 100 := h2

/-- C6 (amended): the score returned by `RiskAssessor.assess` equals the sum
of the five weighted factor values, clamped to `[0, 100]` and then rounded,
so it is an integer in `[0, 100]`; the level, however, is the band of the
UNROUNDED clamped total (banding happens before rounding), so the level can
disagree with the band of the returned integer score when the total falls
within 0.5 above a band boundary — see the counterexample. -/
theorem c6_risk_score_amended (overrides : List (String × ℚ)) (ctx : EvaluationContext)
    (entries : List FrequencyEntry) (nowMs : Int) :
    (assess overrides ctx entries nowMs).score
        = jsRound (clampQ (riskFactorSum overrides ctx entries nowMs) 0 100) ∧
    (assess overrides ctx entries nowMs).level
        = scoreToRiskLevel (clampQ (riskFactorSum overrides ctx entries nowMs) 0 100) ∧
    0 ≤ (assess overrides ctx entries nowMs).score ∧
    (assess overrides ctx entries nowMs).score ≤ 100 := by
  have hsum : factorSum
      [⟨"tool_sensitivity", 30, lookupToolRisk ctx.toolName overrides / 100 * 30,
        "Tool " ++ ctx.toolName.getD "unknown" ++ " risk="
          ++ toString (lookupToolRisk ctx.toolName overrides)⟩,
       ⟨"time_of_day", 15, if isOffHours ctx.time.hour then (15 : ℚ) else 0,
        if (if isOffHours ctx.time.hour then (15 : ℚ) else 0) > 0 then
          "Off-hours operation" else "Business hours"⟩,
       ⟨"trust_deficit", 20, (100 - ctx.trust.score) / 100 * 20,
        "Trust score " ++ toString ctx.trust.score ++ "/100"⟩,
       ⟨"frequency", 15,
        min ((freqCount entries nowMs 60 .agent ctx.agentId ctx.sessionKey : ℚ) / 20) 1 * 15,
        toString (freqCount entries nowMs 60 .agent ctx.agentId ctx.sessionKey)
          ++ " actions in last 60s"⟩,
       ⟨"target_scope", 20, if isExternalTarget ctx then (20 : ℚ) else 0,
        if (if isExternalTarget ctx then (20 : ℚ) else 0) > 0 then
          "External target" else "Internal target"⟩]
      = riskFactorSum overrides ctx entries nowMs := by
    simp only [factorSum, List.foldl_cons, List.foldl_nil, riskFactorSum]
    ring
  have hcl := clampQ_bounds (riskFactorSum overrides ctx entries nowMs)
  have hb := jsRound_bounds _ hcl.1 hcl.2
  refine ⟨?_, ?_, ?_, ?_⟩
  · simp only [assess, hsum]
  · simp only [assess, hsum]
  · simp only [assess, hsum]
    exact hb.1
  · simp only [assess, hsum]
    exact hb.2

/-- The agent with full trust calling an overridden tool of risk 84 at noon:
the factor total is 84/100·30 = 25.2. -/
def ctxToolX : EvaluationContext :=
  { ctxBase with trust := ⟨100, .privileged⟩, toolName := some "x" }

/-- A tool-risk override table assigning tool "x" the risk 84. -/
def overridesX : List (String × ℚ) := [("x", 84)]

/-- C6 (counterexample to the claim as frozen): with factor total 25.2 the
returned level is `medium` (banded on the unrounded total) but the returned
integer score is 25, whose band is `low` — so the level does NOT always
agree with the band of the returned integer score. -/
theorem c6_counterexample :
    (assess overridesX ctxToolX [] 0).level = RiskLevel.medium ∧
    (assess overridesX ctxToolX [] 0).score = 25 ∧
    scoreToRiskLevel ((25 : Int) : ℚ) = RiskLevel.low ∧
    RiskLevel.medium ≠ RiskLevel.low := by
  have hx : ("x" : String) ≠ "" := by decide
  refine ⟨?_, ?_, ?_, by decide⟩
  · simp only [assess]
    norm_num [factorSum, lookupToolRisk, alistGet, overridesX, ctxToolX, ctxBase,
      trust60, timeNoon, isOffHours, freqCount, isExternalTarget, clampQ,
      scoreToRiskLevel, List.find?, List.filter, hx]
  · simp only [assess]
    norm_num [factorSum, lookupToolRisk, alistGet, overridesX, ctxToolX, ctxBase,
      trust60, timeNoon, isOffHours, freqCount, isExternalTarget, clampQ, jsRound,
      List.find?, List.filter, hx]
  · norm_num [scoreToRiskLevel]

/-! ## C7: the frequency factor -/

/-- C7 (amended): the frequency factor of the risk assessment equals
`min(c / 20, 1) * 15` where `c` counts the recorded actions of the last 60
seconds that match the context's AGENT ID only — the source passes scope
`"agent"` to `count`, under which the session key is not consulted.  (The
claim as frozen requires matching both the agent id and the session key; see
the counterexample.) -/
theorem c7_frequency_factor_amended (overrides : List (String × ℚ))
    (ctx : EvaluationContext) (entries : List FrequencyEntry) (nowMs : Int) :
    ((assess overrides ctx entries nowMs).factors.find?
        (fun f => f.name == "frequency")).map RiskFactor.value
      = some (min ((freqCount entries nowMs 60 .agent ctx.agentId ctx.sessionKey : ℚ) / 20) 1
          * 15) := by
  have h1 : ("tool_sensitivity" == "frequency") = false := rfl
  have h2 : ("time_of_day" == "frequency") = false := rfl
  have h3 : ("trust_deficit" == "frequency") = false := rfl
  have h4 : ("frequency" == "frequency") = true := rfl
  simp [assess, List.find?, h1, h2, h3, h4]

/-- One recorded action by agent "main" in another session. -/
def entryOtherSession : FrequencyEntry := ⟨0, "main", "agent:main:other", none⟩

/-- The base context evaluated from session "agent:main:s2". -/
def ctxSession2 : EvaluationContext := { ctxBase with sessionKey := "agent:main:s2" }

/-- C7 (counterexample to the claim as frozen): one recorded action matches
the context's agent id but not its session key; the claim then predicts a
frequency factor of 0, while the code counts it (scope "agent") and yields
`min(1/20, 1) * 15 = 3/4`. -/
theorem c7_counterexample :
    ((assess [] ctxSession2 [entryOtherSession] 0).factors.find?
        (fun f => f.name == "frequency")).map RiskFactor.value = some (3 / 4 : ℚ) ∧
    claimFreqCountBoth [entryOtherSession] 0 ctxSession2.agentId ctxSession2.sessionKey
      = 0 ∧
    min (((claimFreqCountBoth [entryOtherSession] 0 ctxSession2.agentId
        ctxSession2.sessionKey : ℚ)) / 20) 1 * 15 = 0 ∧
    (3 / 4 : ℚ) ≠ 0 := by
  have hboth : claimFreqCountBoth [entryOtherSession] 0 ctxSession2.agentId
      ctxSession2.sessionKey = 0 := by decide
  refine ⟨?_, hboth, ?_, by norm_num⟩
  · have h1 : ("tool_sensitivity" == "frequency") = false := rfl
    have h2 : ("time_of_day" == "frequency") = false := rfl
    have h3 : ("trust_deficit" == "frequency") = false := rfl
    have h4 : ("frequency" == "frequency") = true := rfl
    have hcount : freqCount [entryOtherSession] 0 60 .agent ctxSession2.agentId
        ctxSession2.sessionKey = 1 := by decide
    simp [assess, List.find?, h1, h2, h3, h4, hcount]
    norm_num [min_def]
  · rw [hboth]
    norm_num

/-! ## C8: conditions over absent context fields -/

/-- C8: a condition that consults a context field the evaluation context does
not carry evaluates to false (the embedding is total, so no error can be
raised): a `conversationContains` with no (or empty) conversation history, a
`messageContains` with no (or empty) message content, a non-empty
`hasMetadata` with no metadata, a `channel` condition with no channel, a
`sessionKey` condition with an empty session key, and a `time` condition
naming a window — a truthy, i.e. non-empty, name, since `if (c.window)` is a
JS truthiness guard — absent from the dependency bag, all yield false — for
every regex oracle and whatever the other condition fields are. -/
theorem c8_missing_field_false :
    (∀ (compileRegex : String → Option RegexM) (c : ContextCondition)
        (ctx : EvaluationContext) (deps : ConditionDeps) (pats : StrOrArr),
      c.conversationContains = some pats →
      (ctx.conversationContext = none ∨ ctx.conversationContext = some []) →
      evaluateContextCondition compileRegex c ctx deps = false) ∧
    (∀ (compileRegex : String → Option RegexM) (c : ContextCondition)
        (ctx : EvaluationContext) (deps : ConditionDeps) (pats : StrOrArr),
      c.messageContains = some pats →
      (ctx.messageContent = none ∨ ctx.messageContent = some "") →
      evaluateContextCondition compileRegex c ctx deps = false) ∧
    (∀ (compileRegex : String → Option RegexM) (c : ContextCondition)
        (ctx : EvaluationContext) (deps : ConditionDeps) (keys : StrOrArr),
      c.hasMetadata = some keys → keys.toList ≠ [] → ctx.metadata = none →
      evaluateContextCondition compileRegex c ctx deps = false) ∧
    (∀ (compileRegex : String → Option RegexM) (c : ContextCondition)
        (ctx : EvaluationContext) (deps : ConditionDeps) (chans : StrOrArr),
      c.channel = some chans → ctx.channel = none →
      evaluateContextCondition compileRegex c ctx deps = false) ∧
    (∀ (compileRegex : String → Option RegexM) (c : ContextCondition)
        (ctx : EvaluationContext) (deps : ConditionDeps) (pat : String),
      c.sessionKey = some pat → ctx.sessionKey = "" →
      evaluateContextCondition compileRegex c ctx deps = false) ∧
    (∀ (tc : TimeCondition) (ctx : EvaluationContext) (deps : ConditionDeps)
        (w : String),
      tc.window = some w → w ≠ "" → alistGet deps.timeWindows w = none →
      evaluateTimeCondition tc ctx deps = false) := by
  refine ⟨?_, ?_, ?_, ?_, ?_, ?_⟩
  · intro compileRegex c ctx deps pats hc hctx
    rcases hctx with h | h <;> simp [evaluateContextCondition, hc, h]
  · intro compileRegex c ctx deps pats hc hctx
    rcases hctx with h | h <;> simp [evaluateContextCondition, hc, h]
  · intro compileRegex c ctx deps keys hc hk hm
    obtain ⟨k, ks, hkk⟩ := List.exists_cons_of_ne_nil hk
    simp [evaluateContextCondition, hc, hm, hkk]
  · intro compileRegex c ctx deps chans hc hch
    simp [evaluateContextCondition, hc, hch]
  · intro compileRegex c ctx deps pat hc hsk
    simp [evaluateContextCondition, hc, hsk]
  · intro tc ctx deps w hw hne hlook
    simp [evaluateTimeCondition, hw, hne, hlook]

/-- A conversation condition, for the C8 witness. -/
def condConv : ContextCondition := ⟨some (.one "x"), none, none, none, none⟩

/-- A message-content condition, for the C8 witness. -/
def condMsg : ContextCondition := ⟨none, some (.one "x"), none, none, none⟩

/-- A metadata-presence condition, for the C8 witness. -/
def condMeta : ContextCondition := ⟨none, none, some (.one "k"), none, none⟩

/-- A channel condition, for the C8 witness. -/
def condChan : ContextCondition := ⟨none, none, none, some (.one "dev"), none⟩

/-- A session-key condition, for the C8 witness. -/
def condSess : ContextCondition := ⟨none, none, none, none, some "agent:*"⟩

/-- A named-window time condition, for the C8 witness. -/
def tcWindow : TimeCondition := ⟨some "maintenance", none, none, none⟩

/-- A context carrying none of the optional fields and an empty session key. -/
def ctxBare : EvaluationContext :=
  ⟨.before_tool_call, "main", "", none, none, none, none, none, 0, timeNoon,
    trust60, none, none⟩

/-- Witness for C8: each of the six cases applied at a concrete input. -/
theorem c8_witness :
    evaluateContextCondition compileRegexNone condConv ctxBare depsEmpty = false ∧
    evaluateContextCondition compileRegexNone condMsg ctxBare depsEmpty = false ∧
    evaluateContextCondition compileRegexNone condMeta ctxBare depsEmpty = false ∧
    evaluateContextCondition compileRegexNone condChan ctxBare depsEmpty = false ∧
    evaluateContextCondition compileRegexNone condSess ctxBare depsEmpty = false ∧
    evaluateTimeCondition tcWindow ctxBare depsEmpty = false :=
  ⟨c8_missing_field_false.1 compileRegexNone condConv ctxBare depsEmpty (.one "x")
      rfl (Or.inl rfl),
    c8_missing_field_false.2.1 compileRegexNone condMsg ctxBare depsEmpty (.one "x")
      rfl (Or.inl rfl),
    c8_missing_field_false.2.2.1 compileRegexNone condMeta ctxBare depsEmpty (.one "k")
      rfl (by decide) rfl,
    c8_missing_field_false.2.2.2.1 compileRegexNone condChan ctxBare depsEmpty
      (.one "dev") rfl rfl,
    c8_missing_field_false.2.2.2.2.1 compileRegexNone condSess ctxBare depsEmpty
      "agent:*" rfl rfl,
    c8_missing_field_false.2.2.2.2.2 tcWindow ctxBare depsEmpty "maintenance" rfl
      (by decide) rfl⟩

/-! ## C10: the empty context condition -/

/-- C10: a context condition with none of its optional fields set evaluates
to true for every evaluation context and dependency bag, and a rule guarded
only by such a condition fires — the policy contributes the rule's effect —
whenever the rule carries no trust gates. -/
theorem c10_empty_condition_true :
    (∀ (compileRegex : String → Option RegexM) (c : ContextCondition)
        (ctx : EvaluationContext) (deps : ConditionDeps),
      c.conversationContains = none → c.messageContains = none →
      c.hasMetadata = none → c.channel = none → c.sessionKey = none →
      evaluateContextCondition compileRegex c ctx deps = true) ∧
    (∀ (compileRegex : String → Option RegexM) (c : ContextCondition)
        (ctx : EvaluationContext) (deps : ConditionDeps) (risk : RiskAssessment)
        (pid pname pver rid : String) (eff : RuleEffect) (scope : PolicyScope)
        (en : Option Bool) (pri : Option Int),
      c.conversationContains = none → c.messageContains = none →
      c.hasMetadata = none → c.channel = none → c.sessionKey = none →
      evaluatePolicyWithDeps (evalCondition compileRegex)
          ⟨pid, pname, pver, scope, [⟨rid, [Condition.context c], eff, none, none⟩],
            en, pri⟩ ctx risk deps
        = some ⟨pid, rid, eff⟩) := by
  have hbase : ∀ (compileRegex : String → Option RegexM) (c : ContextCondition)
      (ctx : EvaluationContext) (deps : ConditionDeps),
      c.conversationContains = none → c.messageContains = none →
      c.hasMetadata = none → c.channel = none → c.sessionKey = none →
      evaluateContextCondition compileRegex c ctx deps = true := by
    intro compileRegex c ctx deps h1 h2 h3 h4 h5
    simp [evaluateContextCondition, h1, h2, h3, h4, h5]
  refine ⟨hbase, ?_⟩
  intro compileRegex c ctx deps risk pid pname pver rid eff scope en pri h1 h2 h3 h4 h5
  have hc := hbase compileRegex c ctx { deps with risk := risk } h1 h2 h3 h4 h5
  simp [evaluatePolicyWithDeps, findRuleMatch, evaluateConditions, evalCondition, hc]

/-- The context condition with no fields set, for the C10 witness. -/
def condEmpty : ContextCondition := ⟨none, none, none, none, none⟩

/-- Witness for C10 at a concrete condition, context and single-rule policy. -/
theorem c10_witness :
    evaluateContextCondition compileRegexNone condEmpty ctxBare depsEmpty = true ∧
    evaluatePolicyWithDeps (evalCondition compileRegexNone)
        ⟨"p", "n", "1.0.0", scopeAny, [⟨"r", [Condition.context condEmpty], .allow,
          none, none⟩], none, none⟩ ctxBare noRisk depsEmpty
      = some ⟨"p", "r", .allow⟩ :=
  ⟨c10_empty_condition_true.1 compileRegexNone condEmpty ctxBare depsEmpty
      rfl rfl rfl rfl rfl,
    c10_empty_condition_true.2 compileRegexNone condEmpty ctxBare depsEmpty noRisk
      "p" "n" "1.0.0" "r" .allow scopeAny none none rfl rfl rfl rfl rfl⟩

end Governance
